import Mathlib

/-!
Shallow embedding of `src/iam_ic_report.py` (AWS SSO Permission Inspector).

The script is a sequential report generator: it discovers an Identity Center
instance, reads a list of account ids, optionally loads account metadata from a
CSV file, and then, for each account and each provisioned permission set,
gathers policies and account assignments and appends one spreadsheet row per
assignment.

Remote AWS calls are modelled by environments: each paginated listing is a
`Paged` value (the pages the service yields in order, plus an optional
exception raised on the call after those pages), and each describe call is an
`Except PyExc` response.  The control flow of the Python code — which
exceptions are caught where, which loops are unprotected — is translated
directly.
-/

namespace IamIcReport

/-- Exception classes raised by the AWS SDK calls and the json library in the
script: `resourceNotFound` is the identity store ResourceNotFoundException (a
ClientError subclass), `clientError` is any other botocore ClientError,
`jsonDecode` is the decode error raised by the json library on invalid input
(not a ClientError), and `otherExc` is any other Python exception. -/
inductive PyExc where
  | resourceNotFound
  | clientError
  | jsonDecode
  | otherExc
deriving DecidableEq

/-- Whether an exception is caught by an `except ClientError` handler:
ResourceNotFoundException is a ClientError subclass. -/
def PyExc.isClientError : PyExc → Bool
  | .resourceNotFound => true
  | .clientError => true
  | .jsonDecode => false
  | .otherExc => false

/-- A paginated AWS listing: the pages the service yields in order, and an
optional exception raised on the call made after the listed pages. -/
structure Paged (α : Type) where
  pages : List (List α)
  err : Option PyExc

/-- Concatenation of lists, as accumulated by the pagination loops. -/
def joinAll {α : Type} : List (List α) → List α
  | [] => []
  | xs :: rest => xs ++ joinAll rest

/-- All items a `while True` pagination loop has accumulated by the time it
stops (normally or at the page where the exception was raised). -/
def Paged.items {α : Type} (p : Paged α) : List α := joinAll p.pages

/-- Sequential processing of a list where the body may raise: the Python
for-loop semantics, stopping at the first uncaught exception. -/
def mapRows {α β : Type} (f : α → Except PyExc β) : List α → Except PyExc (List β)
  | [] => .ok []
  | x :: xs =>
    match f x with
    | .error e => .error e
    | .ok y =>
      match mapRows f xs with
      | .error e => .error e
      | .ok ys => .ok (y :: ys)

/-- Python string truthiness fallback `x or y` on an optional string field:
both an absent field (None) and an empty string fall through to `y`. -/
def pyOrStr (x : Option String) (y : String) : String :=
  match x with
  | none => y
  | some s => if s = "" then y else s

/-- Python `str.strip()` (whitespace trim). -/
def pyStrip (s : String) : String := s.trim

/-- Python `s.rstrip('/')`: remove trailing slash characters only. -/
def rstripSlashes (s : String) : String :=
  String.mk ((s.data.reverse.dropWhile (fun c => c = '/')).reverse)

/-- The sentinel used by the script for unmapped account metadata fields. -/
def csvNotMapped : String := "N/A (CSV not found/mapped)"

/-- Per-account metadata entry built by `load_account_details`
(keys Name / Type / Owner). -/
structure AccountDetails where
  name : String
  atype : String
  owner : String
deriving DecidableEq

/-- The CSV file as seen through `csv.DictReader`: header names plus one
association list of header-to-value per data row. -/
structure CsvFile where
  fieldnames : List String
  rows : List (List (String × String))

/-- Python `row.get(key, "")` on a DictReader row. -/
def rowGet (row : List (String × String)) (k : String) : String :=
  match row.lookup k with
  | some v => v
  | none => ""

/-- `load_account_details`: `none` models FileNotFoundError (the file is
missing), giving the empty mapping; otherwise the header "Account No." is
required, rows with a blank key are skipped, and each kept field falls back to
the sentinel when blank.  The returned association list is consulted with
`List.lookup`, front entries shadowing older ones (last write wins, as in a
Python dict). -/
def load_account_details (file : Option CsvFile) : List (String × AccountDetails) :=
  match file with
  | none => []
  | some f =>
    if f.fieldnames.contains ("Account No.") then
      f.rows.foldl (fun m row =>
        let accountId := pyStrip (rowGet row ("Account No."))
        if accountId = "" then m
        else
          (accountId,
            { name := pyOrStr (some (pyStrip (rowGet row ("Account ID")))) csvNotMapped
              atype := pyOrStr (some (pyStrip (rowGet row ("Account Type")))) csvNotMapped
              owner := pyOrStr (some (pyStrip (rowGet row ("Account Owner")))) csvNotMapped
              : AccountDetails }) :: m) []
    else []

/-- The main loop's metadata resolution for one account id:
`account_details_map.get(account_id, {})` followed by three
`.get(field, sentinel)` reads. -/
def resolve_account_fields (m : List (String × AccountDetails)) (accountId : String) :
    String × String × String :=
  match m.lookup accountId with
  | none => (csvNotMapped, csvNotMapped, csvNotMapped)
  | some d => (d.name, d.atype, d.owner)

/-- `get_permission_sets_for_account`: the whole pagination loop sits inside
one `try`, and `except ClientError` falls through to returning whatever was
accumulated before the exception; a non-ClientError exception propagates. -/
def get_permission_sets_for_account (listing : Paged String) : Except PyExc (List String) :=
  match listing.err with
  | none => .ok listing.items
  | some e => if e.isClientError then .ok listing.items else .error e

/-- `describe_group` response body: the DisplayName field may be absent. -/
structure GroupResp where
  displayName : Option String
deriving DecidableEq

/-- `describe_user` response body: DisplayName and UserName may be absent. -/
structure UserResp where
  displayName : Option String
  userName : Option String
deriving DecidableEq

/-- `get_group_name`: `resp.get("DisplayName", "")` on success, the
"Group ID Not Found" placeholder on ResourceNotFoundException, and "Unknown"
on any other exception. -/
def get_group_name (groupId : String) (resp : Except PyExc GroupResp) : String :=
  match resp with
  | .ok r => r.displayName.getD ""
  | .error .resourceNotFound => ("Group ID Not Found: ") ++ groupId
  | .error _ => "Unknown"

/-- Member-name resolution, as written at both `describe_user` call sites:
`u.get("DisplayName") or u.get("UserName") or "Unknown"` inside a bare
try/except whose handler yields "Unknown".  Total: never raises. -/
def resolve_user_name (resp : Except PyExc UserResp) : String :=
  match resp with
  | .ok u => pyOrStr u.displayName (pyOrStr u.userName "Unknown")
  | .error _ => "Unknown"

/-- Identity-store view of one group: the `describe_group` response, the
paginated `list_group_memberships` result (member user ids), and the
`describe_user` response per member id. -/
structure GroupEnv where
  describe : Except PyExc GroupResp
  memberships : Paged String
  users : String → Except PyExc UserResp

/-- `get_users_of_group`: the pre-validation `describe_group` returns `[]` on
any exception; the membership pagination loop catches only ClientError and
then still resolves the memberships accumulated so far; each member name is
resolved with the total fallback `resolve_user_name`. -/
def get_users_of_group (g : GroupEnv) : Except PyExc (List String) :=
  match g.describe with
  | .error _ => .ok []
  | .ok _ =>
    match g.memberships.err with
    | none => .ok (g.memberships.items.map (fun uid => resolve_user_name (g.users uid)))
    | some e =>
      if e.isClientError then
        .ok (g.memberships.items.map (fun uid => resolve_user_name (g.users uid)))
      else .error e

/-- One entry of `AttachedManagedPolicies`: Arn defaults to "" and Name to
"Unknown" via `.get`. -/
structure ManagedPolicy where
  arn : Option String
  name : Option String
deriving DecidableEq

/-- `policy.get("Arn", "")`. -/
def managedArn (p : ManagedPolicy) : String := p.arn.getD ""

/-- `policy.get("Name", "Unknown")`. -/
def managedName (p : ManagedPolicy) : String := p.name.getD "Unknown"

/-- Character-list leading-match test, structurally recursive so that it
evaluates by kernel reduction. -/
def charsLeadWith : List Char → List Char → Bool
  | [], _ => true
  | _ :: _, [] => false
  | c :: cs, d :: ds => (c = d) && charsLeadWith cs ds

/-- Python `s.startswith(pre)`. -/
def pyStartsWith (s pre : String) : Bool := charsLeadWith pre.data s.data

/-- The ARN test `arn.startswith("arn:aws:iam::aws:policy")`. -/
def isAwsManagedArn (arn : String) : Bool :=
  pyStartsWith arn ("arn:aws:iam::aws:policy")

/-- Names collected into `aws_managed` by the first managed-policy loop, in
listing order. -/
def awsManagedNames (ps : List ManagedPolicy) : List String :=
  (ps.filter (fun p => isAwsManagedArn (managedArn p))).map managedName

/-- Names collected into `customer_managed_names` by the first managed-policy
loop (non-AWS ARNs), in listing order. -/
def customerManagedFromArns (ps : List ManagedPolicy) : List String :=
  (ps.filter (fun p => ! isAwsManagedArn (managedArn p))).map managedName

/-- One entry of `CustomerManagedPolicyReferences`: Path defaults to "" and
Name to "Unknown" via `.get`. -/
structure PolicyRef where
  path : Option String
  name : Option String
deriving DecidableEq

/-- The customer-managed reference formatting in the second managed-policy
loop: when the path is truthy and not "/", the full name is
`ref_path.rstrip('/')` ++ "/" ++ name (note: `rstrip` removes trailing slashes
only, so a leading slash in the path is kept); otherwise just the name. -/
def format_policy_ref (r : PolicyRef) : String :=
  let refPath := r.path.getD ""
  let refName := r.name.getD "Unknown"
  if refPath ≠ "" ∧ refPath ≠ "/" then rstripSlashes refPath ++ "/" ++ refName
  else refName

/-- The inline-policy block: fetch `.get("InlinePolicy", "")` and, when
non-empty, pretty-print with `json.dumps(json.loads(...))`.  Both steps sit in
one `try` whose only handler is `except ClientError` (yielding ""); the json
decode error is not a ClientError and propagates.  `pretty` is the external
json library's loads-then-dumps composition, supplied by the environment. -/
def process_inline (resp : Except PyExc (Option String))
    (pretty : String → Except PyExc String) : Except PyExc String :=
  let body : Except PyExc String :=
    match resp with
    | .error e => .error e
    | .ok r =>
      let inlinePolicy := r.getD ""
      if inlinePolicy = "" then .ok inlinePolicy else pretty inlinePolicy
  match body with
  | .ok s => .ok s
  | .error e => if e.isClientError then .ok "" else .error e

/-- One element of `AccountAssignments`. -/
structure Assignment where
  principalId : String
  principalType : String
deriving DecidableEq

/-- One appended spreadsheet row (the 12 data columns, header order). -/
structure ReportRow where
  accountId : String
  accountName : String
  accountType : String
  accountOwner : String
  principalId : String
  principalType : String
  userOrGroupName : String
  userListStr : String
  psName : String
  awsManagedStr : String
  customerManagedStr : String
  inlinePolicyStr : String
deriving DecidableEq

/-- The values fixed before the assignment loop of one (account,
permission-set) pair: account fields, permission-set name, and the three
joined policy strings. -/
structure RowCtx where
  accountId : String
  accountName : String
  accountType : String
  accountOwner : String
  psName : String
  awsManagedStr : String
  customerManagedStr : String
  inlinePolicyStr : String

/-- The `ws.append([...])` argument for one assignment. -/
def mkRow (ctx : RowCtx) (a : Assignment) (userOrGroupName userListStr : String) :
    ReportRow :=
  { accountId := ctx.accountId
    accountName := ctx.accountName
    accountType := ctx.accountType
    accountOwner := ctx.accountOwner
    principalId := a.principalId
    principalType := a.principalType
    userOrGroupName := userOrGroupName
    userListStr := userListStr
    psName := ctx.psName
    awsManagedStr := ctx.awsManagedStr
    customerManagedStr := ctx.customerManagedStr
    inlinePolicyStr := ctx.inlinePolicyStr }

/-- The body of the assignment loop for one assignment: the GROUP branch calls
`get_group_name` (total) and `get_users_of_group` (may raise a non-ClientError
exception); the USER branch uses the total `resolve_user_name`; any other
principal type leaves both cells at their "" initialisation. -/
def process_assignment (ctx : RowCtx) (groups : String → GroupEnv)
    (users : String → Except PyExc UserResp) (a : Assignment) :
    Except PyExc ReportRow :=
  if a.principalType = "GROUP" then
    let g := groups a.principalId
    let groupName := get_group_name a.principalId g.describe
    match get_users_of_group g with
    | .error e => .error e
    | .ok groupUsers => .ok (mkRow ctx a groupName (String.intercalate (", ") groupUsers))
  else if a.principalType = "USER" then
    let userName := resolve_user_name (users a.principalId)
    .ok (mkRow ctx a userName userName)
  else
    .ok (mkRow ctx a "" "")

/-- What the remote service returns for one (account, permission-set) pair:
the `describe_permission_set` name, the two managed-policy listings, the
inline-policy fetch plus the json pretty-printer, the assignment listing, and
the identity-store views used while resolving principals. -/
structure PsEnv where
  describe : Except PyExc String
  managedPolicies : Paged ManagedPolicy
  customerRefs : Paged PolicyRef
  inlineResp : Except PyExc (Option String)
  prettyPrint : String → Except PyExc String
  assignments : Paged Assignment
  groups : String → GroupEnv
  users : String → Except PyExc UserResp

/-- The account-level fields carried into every row of the account. -/
structure AccountFields where
  accountId : String
  accountName : String
  accountType : String
  accountOwner : String

/-- The per-permission-set body of the main loop.  `describe_permission_set`
sits in a try catching ClientError (`continue`, no rows); the two
managed-policy pagination loops, the second (customer-reference) loop and the
account-assignment pagination loop are NOT wrapped in any try, so an exception
there propagates; the inline block is `process_inline`.  On success the rows
appended for this pair are returned in order. -/
def process_permission_set (acct : AccountFields) (env : PsEnv) :
    Except PyExc (List ReportRow) :=
  match env.describe with
  | .error e => if e.isClientError then .ok [] else .error e
  | .ok psName =>
    match env.managedPolicies.err with
    | some e => .error e
    | none =>
      match env.customerRefs.err with
      | some e => .error e
      | none =>
        match process_inline env.inlineResp env.prettyPrint with
        | .error e => .error e
        | .ok inlinePolicy =>
          match env.assignments.err with
          | some e => .error e
          | none =>
            let ctx : RowCtx :=
              { accountId := acct.accountId
                accountName := acct.accountName
                accountType := acct.accountType
                accountOwner := acct.accountOwner
                psName := psName
                awsManagedStr :=
                  String.intercalate (", ") (awsManagedNames env.managedPolicies.items)
                customerManagedStr :=
                  String.intercalate (", ")
                    (customerManagedFromArns env.managedPolicies.items
                      ++ env.customerRefs.items.map format_policy_ref)
                inlinePolicyStr := inlinePolicy }
            mapRows (process_assignment ctx env.groups env.users) env.assignments.items

/-- What the remote service returns for one account: the permission-set
listing and, per permission-set arn, its `PsEnv`. -/
structure AccountEnv where
  permissionSets : Paged String
  psEnv : String → PsEnv

/-- The account fields the main loop fixes for one account id before touching
its permission sets: the id itself plus the three metadata lookups. -/
def account_fields_of (detailsMap : List (String × AccountDetails))
    (accountId : String) : AccountFields :=
  ⟨accountId,
    (resolve_account_fields detailsMap accountId).1,
    (resolve_account_fields detailsMap accountId).2.1,
    (resolve_account_fields detailsMap accountId).2.2⟩

/-- The per-account body of the main loop: resolve metadata, list permission
sets (empty listing means skip with no rows), then process each permission set
in listing order, concatenating the appended rows. -/
def process_account (detailsMap : List (String × AccountDetails))
    (accountId : String) (env : AccountEnv) : Except PyExc (List ReportRow) :=
  match get_permission_sets_for_account env.permissionSets with
  | .error e => .error e
  | .ok psList =>
    if psList = [] then .ok []
    else
      match mapRows (fun arn =>
          process_permission_set (account_fields_of detailsMap accountId)
            (env.psEnv arn)) psList with
      | .error e => .error e
      | .ok rowBlocks => .ok (joinAll rowBlocks)

/-- The whole main loop over the entered account ids, in input order; the rows
appended to the sheet, or the uncaught exception that aborted the run. -/
def run_report (detailsMap : List (String × AccountDetails))
    (accounts : List (String × AccountEnv)) : Except PyExc (List ReportRow) :=
  match mapRows (fun p => process_account detailsMap p.1 p.2) accounts with
  | .error e => .error e
  | .ok blocks => .ok (joinAll blocks)

/-- The account-id prompt parsing: split on commas, strip, drop empties. -/
def parse_account_ids (input : String) : List String :=
  ((input.splitOn (",")).map pyStrip).filter (fun s => s ≠ "")

/-! ## Concrete service states used to exercise the model -/

/-- A row context as fixed before one assignment loop. -/
def c4ctx : RowCtx :=
  ⟨("111111111111"), ("Prod"), ("Workload"), ("OwnerA"), ("AdminPS"),
    ("AdministratorAccess"), ("/eng/DevPolicy"), ("")⟩

/-- An identity store with one group "Engineers" whose members display as
"Alice" (DisplayName) and "bob" (UserName fallback). -/
def c4groups : String → GroupEnv := fun _ =>
  ⟨Except.ok ⟨some ("Engineers")⟩,
    ⟨[[("u1"), ("u2")]], none⟩,
    fun uid =>
      if uid = "u1" then Except.ok ⟨some ("Alice"), none⟩
      else Except.ok ⟨none, some ("bob")⟩⟩

/-- A `describe_user` view where every user displays as "Carol". -/
def c4users : String → Except PyExc UserResp := fun _ =>
  Except.ok ⟨some ("Carol"), none⟩

/-- A GROUP assignment. -/
def c4assign : Assignment := ⟨("g-1"), ("GROUP")⟩

/-- The row the script appends for `c4assign` under `c4ctx`. -/
def c4row : ReportRow := mkRow c4ctx c4assign ("Engineers") ("Alice, bob")

/-- A USER assignment. -/
def c5assign : Assignment := ⟨("u-3"), ("USER")⟩

/-- The row the script appends for `c5assign` under `c4ctx`. -/
def c5row : ReportRow := mkRow c4ctx c5assign ("Carol") ("Carol")

/-- The service state of one fully processed permission set "AdminPS": one
AWS-managed policy, one customer-managed reference, no inline policy, and one
GROUP plus one USER assignment. -/
def c1env : PsEnv :=
  ⟨Except.ok ("AdminPS"),
    ⟨[[⟨some ("arn:aws:iam::aws:policy/AdministratorAccess"),
        some ("AdministratorAccess")⟩]], none⟩,
    ⟨[[⟨some ("/eng/"), some ("DevPolicy")⟩]], none⟩,
    Except.ok none,
    fun s => Except.ok s,
    ⟨[[c4assign, c5assign]], none⟩,
    c4groups,
    c4users⟩

/-- The account fields paired with `c1env`. -/
def c1acct : AccountFields := ⟨("111111111111"), ("Prod"), ("Workload"), ("OwnerA")⟩

/-- The rows the script appends for `c1acct` × `c1env`. -/
def c1rows : List ReportRow := [c4row, c5row]

/-- An account with one listed permission set behaving as `c1env`. -/
def c8env : AccountEnv := ⟨⟨[[("ps-arn-1")]], none⟩, fun _ => c1env⟩

/-- One requested account, processed against `c8env`. -/
def c8accounts : List (String × AccountEnv) := [(("111111111111"), c8env)]

/-- The row context produced for that account when the metadata CSV is
missing: all three metadata fields carry the sentinel. -/
def c8ctx : RowCtx :=
  ⟨("111111111111"), csvNotMapped, csvNotMapped, csvNotMapped, ("AdminPS"),
    ("AdministratorAccess"), ("/eng/DevPolicy"), ("")⟩

/-- The rows of the `c8accounts` run with a missing metadata CSV. -/
def c8rows : List ReportRow :=
  [mkRow c8ctx c4assign ("Engineers") ("Alice, bob"),
    mkRow c8ctx c5assign ("Carol") ("Carol")]

/-- A permission set whose inline policy is present but not valid JSON: the
json pretty-printer raises a decode error on it. -/
def c9env : PsEnv :=
  ⟨Except.ok ("PS-Two"), ⟨[], none⟩, ⟨[], none⟩, Except.ok (some ("not json")),
    fun _ => Except.error PyExc.jsonDecode, ⟨[], none⟩, c4groups, c4users⟩

/-- A benign permission-set environment, base state for the abort
counterexamples. -/
def c3psBase : PsEnv :=
  ⟨Except.ok ("PS-One"), ⟨[], none⟩, ⟨[], none⟩, Except.ok none,
    fun s => Except.ok s, ⟨[], none⟩, c4groups, c4users⟩

/-- An account with one listed permission set behaving as `ps`. -/
def c3acct (ps : PsEnv) : AccountEnv := ⟨⟨[[("arn-1")]], none⟩, fun _ => ps⟩

/-- A pagination loop whose only possible failure is a ClientError. -/
def pagedScoped {α : Type} (p : Paged α) : Prop :=
  ∀ e, p.err = some e → e.isClientError = true

/-- A group whose membership listing fails, if at all, with a ClientError
(the only exception class that listing loop catches). -/
def groupScoped (g : GroupEnv) : Prop := pagedScoped g.memberships

/-- A permission-set environment in which every exception the script leaves
uncaught is absent: the describe call fails (if at all) with a ClientError,
the managed-policy, customer-reference and assignment listings raise nothing,
the inline fetch and the json pretty-printer fail (if at all) with a
ClientError, and every group's membership listing is ClientError-scoped. -/
def psScoped (env : PsEnv) : Prop :=
  (∀ e, env.describe = Except.error e → e.isClientError = true) ∧
  env.managedPolicies.err = none ∧
  env.customerRefs.err = none ∧
  (∀ e, env.inlineResp = Except.error e → e.isClientError = true) ∧
  (∀ s e, env.prettyPrint s = Except.error e → e.isClientError = true) ∧
  env.assignments.err = none ∧
  (∀ pid, groupScoped (env.groups pid))

/-- An account environment whose permission-set listing fails, if at all,
with a ClientError, and all of whose permission sets are `psScoped`. -/
def accountScoped (env : AccountEnv) : Prop :=
  pagedScoped env.permissionSets ∧ ∀ arn, psScoped (env.psEnv arn)

/-! ## Helper lemmas -/

theorem strAppendData (a b : String) : (a ++ b).data = a.data ++ b.data := by
  cases a; cases b; rfl

theorem mem_joinAll {α : Type} (a : α) :
    ∀ (ls : List (List α)), a ∈ joinAll ls ↔ ∃ l ∈ ls, a ∈ l := by
  intro ls
  induction ls with
  | nil => simp [joinAll]
  | cons x xs ih => simp [joinAll, ih, List.mem_append]

theorem mapRows_ok_length {α β : Type} (f : α → Except PyExc β) :
    ∀ (xs : List α) (ys : List β), mapRows f xs = Except.ok ys → ys.length = xs.length := by
  intro xs
  induction xs with
  | nil =>
    intro ys h
    simp only [mapRows] at h
    cases h
    rfl
  | cons x xs ih =>
    intro ys h
    simp only [mapRows] at h
    cases hx : f x with
    | error e => rw [hx] at h; exact Except.noConfusion h
    | ok y =>
      rw [hx] at h
      cases hrest : mapRows f xs with
      | error e => rw [hrest] at h; exact Except.noConfusion h
      | ok ys2 =>
        rw [hrest] at h
        cases h
        simp [ih ys2 hrest]

theorem mapRows_ok_mem {α β : Type} (f : α → Except PyExc β) :
    ∀ (xs : List α) (ys : List β), mapRows f xs = Except.ok ys →
      ∀ y ∈ ys, ∃ x ∈ xs, f x = Except.ok y := by
  intro xs
  induction xs with
  | nil =>
    intro ys h y hy
    simp only [mapRows] at h
    cases h
    exact absurd hy (List.not_mem_nil y)
  | cons x xs ih =>
    intro ys h y hy
    simp only [mapRows] at h
    cases hx : f x with
    | error e => rw [hx] at h; exact Except.noConfusion h
    | ok y2 =>
      rw [hx] at h
      cases hrest : mapRows f xs with
      | error e => rw [hrest] at h; exact Except.noConfusion h
      | ok ys2 =>
        rw [hrest] at h
        cases h
        rcases List.mem_cons.mp hy with h1 | h2
        · exact ⟨x, List.mem_cons_self x xs, h1 ▸ hx⟩
        · rcases ih ys2 hrest y h2 with ⟨x2, hx2, hfx2⟩
          exact ⟨x2, List.mem_cons_of_mem x hx2, hfx2⟩

theorem mapRows_ok_of_all {α β : Type} (f : α → Except PyExc β) :
    ∀ (xs : List α), (∀ x ∈ xs, ∃ y, f x = Except.ok y) →
      ∃ ys, mapRows f xs = Except.ok ys := by
  intro xs
  induction xs with
  | nil => intro _; exact ⟨[], rfl⟩
  | cons x xs ih =>
    intro h
    rcases h x (List.mem_cons_self x xs) with ⟨y, hy⟩
    rcases ih (fun z hz => h z (List.mem_cons_of_mem x hz)) with ⟨ys, hys⟩
    refine ⟨y :: ys, ?_⟩
    simp only [mapRows, hy, hys]

theorem placeholderNeEmpty (gid : String) : ("Group ID Not Found: ") ++ gid ≠ "" := by
  intro h
  have h2 := congrArg String.data h
  rw [strAppendData] at h2
  have h3 : ("" : String).data = [] := rfl
  rw [h3] at h2
  have h4 := (List.append_eq_nil.mp h2).1
  exact absurd h4 (by decide)

theorem placeholderNeUnknown (gid : String) :
    ("Group ID Not Found: ") ++ gid ≠ "Unknown" := by
  intro h
  have h2 := congrArg String.data h
  rw [strAppendData] at h2
  have h3 := congrArg List.length h2
  rw [List.length_append] at h3
  have h4 : ("Group ID Not Found: " : String).data.length = 20 := by decide
  have h5 : ("Unknown" : String).data.length = 7 := by decide
  rw [h4, h5] at h3
  omega

/-! ## Claims -/

/-- Claim C2, counterexample: the claim says a reference with path "/eng/" and
name "DevPolicy" formats as "eng/DevPolicy" with no leading slash, but
`ref_path.rstrip('/')` only removes trailing slashes, so the code produces
"/eng/DevPolicy" with the leading slash kept. -/
theorem C2_format_cex :
    format_policy_ref ⟨some ("/eng/"), some ("DevPolicy")⟩ = "/eng/DevPolicy" ∧
    ("/eng/DevPolicy" : String) ≠ "eng/DevPolicy" := by
  exact ⟨by decide, by decide⟩

/-- Claim C2, amended: a reference with non-empty path other than "/" formats
as the path with trailing slashes stripped (the leading slash kept), then "/",
then the name — so path "/eng/" with name "DevPolicy" gives "/eng/DevPolicy" —
and a reference with path "/", "" or absent formats as just the name
(defaulted to "Unknown" when absent). -/
theorem C2_format_amended :
    (∀ p n, p ≠ "" → p ≠ "/" →
      format_policy_ref ⟨some p, some n⟩ = rstripSlashes p ++ "/" ++ n) ∧
    (∀ n, format_policy_ref ⟨some ("/"), n⟩ = n.getD ("Unknown")) ∧
    (∀ n, format_policy_ref ⟨some (""), n⟩ = n.getD ("Unknown")) ∧
    (∀ n, format_policy_ref ⟨none, n⟩ = n.getD ("Unknown")) ∧
    format_policy_ref ⟨some ("/eng/"), some ("DevPolicy")⟩ = "/eng/DevPolicy" ∧
    format_policy_ref ⟨some ("/"), some ("Base")⟩ = "Base" := by
  refine ⟨?_, ?_, ?_, ?_, by decide, by decide⟩
  · intro p n hp hp2
    simp only [format_policy_ref, Option.getD_some]
    rw [if_pos ⟨hp, hp2⟩]
  · intro n
    simp [format_policy_ref]
  · intro n
    simp [format_policy_ref]
  · intro n
    simp [format_policy_ref]

/-- Claim C2 witness for the amended general case, at path "/eng/" and name
"DevPolicy". -/
theorem C2_format_amended_witness :
    (("/eng/" : String) ≠ "" ∧ ("/eng/" : String) ≠ "/") ∧
    format_policy_ref ⟨some ("/eng/"), some ("DevPolicy")⟩ =
      rstripSlashes ("/eng/") ++ "/" ++ "DevPolicy" :=
  ⟨⟨by decide, by decide⟩,
    C2_format_amended.1 ("/eng/") ("DevPolicy") (by decide) (by decide)⟩

/-- Claim C6, counterexample: the claim says a transport error at any point of
the paginated listing makes `get_permission_sets_for_account` return an empty
sequence; but the `try` wraps the whole loop and the handler falls through to
`return permission_sets`, so pages accumulated before the error are returned:
with one page ["ps-AAA"] already listed and a ClientError on the next call the
function returns ["ps-AAA"], not []. -/
theorem C6_accum_cex :
    get_permission_sets_for_account ⟨[["ps-AAA"]], some PyExc.clientError⟩ =
      Except.ok ["ps-AAA"] ∧
    (["ps-AAA"] : List String) ≠ ([] : List String) := by
  exact ⟨rfl, by decide⟩

/-- Claim C6, amended: on a ClientError during the paginated permission-set
listing, `get_permission_sets_for_account` logs and returns the permission
sets accumulated before the error — an empty sequence exactly when the error
occurs before any page was returned — and the account is then treated as
having exactly those permission sets rather than aborting the run. -/
theorem C6_accum_amended (pages : List (List String)) (e : PyExc)
    (h : e.isClientError = true) :
    get_permission_sets_for_account ⟨pages, some e⟩ = Except.ok (joinAll pages) ∧
    get_permission_sets_for_account ⟨[], some e⟩ = Except.ok [] := by
  constructor
  · simp only [get_permission_sets_for_account, Paged.items, h, if_true]
  · simp only [get_permission_sets_for_account, Paged.items, h, if_true, joinAll]

/-- Claim C6 witness for the amended statement: a ClientError after one listed
page. -/
theorem C6_accum_amended_witness :
    PyExc.clientError.isClientError = true ∧
    get_permission_sets_for_account ⟨[["ps-AAA"]], some PyExc.clientError⟩ =
      Except.ok (joinAll [["ps-AAA"]]) :=
  ⟨by decide,
    (C6_accum_amended [["ps-AAA"]] PyExc.clientError (by decide)).1⟩

/-- Claim C7: user display-name resolution is total (it returns a string, so
it never raises to its caller) and falls back DisplayName, then UserName, then
"Unknown": any lookup failure gives "Unknown"; a non-blank DisplayName wins; a
blank or absent DisplayName falls back to a non-blank UserName; and when both
fields are blank or absent the result is "Unknown". -/
theorem C7_user_fallback :
    (∀ e, resolve_user_name (Except.error e) = "Unknown") ∧
    (∀ d u, d ≠ "" →
      resolve_user_name (Except.ok ⟨some d, u⟩) = d) ∧
    (∀ dOpt n, (dOpt = none ∨ dOpt = some "") → n ≠ "" →
      resolve_user_name (Except.ok ⟨dOpt, some n⟩) = n) ∧
    (∀ dOpt nOpt, (dOpt = none ∨ dOpt = some "") → (nOpt = none ∨ nOpt = some "") →
      resolve_user_name (Except.ok ⟨dOpt, nOpt⟩) = "Unknown") := by
  refine ⟨fun e => rfl, ?_, ?_, ?_⟩
  · intro d u hd
    simp [resolve_user_name, pyOrStr, hd]
  · intro dOpt n hd hn
    rcases hd with h | h <;> subst h <;> simp [resolve_user_name, pyOrStr, hn]
  · intro dOpt nOpt hd hn
    rcases hd with h | h <;> rcases hn with h2 | h2 <;> subst h <;> subst h2 <;>
      simp [resolve_user_name, pyOrStr]

/-- Claim C7 witness: a user whose DisplayName is blank and whose UserName is
"alice" resolves to "alice". -/
theorem C7_user_fallback_witness :
    ((some ("") : Option String) = none ∨ (some ("") : Option String) = some "") ∧
    ("alice" : String) ≠ "" ∧
    resolve_user_name (Except.ok ⟨some (""), some ("alice")⟩) = "alice" :=
  ⟨Or.inr rfl, by decide,
    C7_user_fallback.2.2.1 (some ("")) ("alice") (Or.inr rfl) (by decide)⟩

/-- Claim C10: when `describe_group` succeeds without a DisplayName field, the
result is "" (and a present DisplayName is returned verbatim); the placeholder
"Group ID Not Found: <id>" is returned exactly on ResourceNotFoundException
and "Unknown" exactly on every other exception; and the three outcomes are
pairwise distinct strings. -/
theorem C10_group_name :
    (∀ gid, get_group_name gid (Except.ok ⟨none⟩) = "") ∧
    (∀ gid d, get_group_name gid (Except.ok ⟨some d⟩) = d) ∧
    (∀ gid, get_group_name gid (Except.error PyExc.resourceNotFound) =
      ("Group ID Not Found: ") ++ gid) ∧
    (∀ gid e, e ≠ PyExc.resourceNotFound →
      get_group_name gid (Except.error e) = "Unknown") ∧
    (("" : String) ≠ "Unknown") ∧
    (∀ gid, ("Group ID Not Found: ") ++ gid ≠ "") ∧
    (∀ gid, ("Group ID Not Found: ") ++ gid ≠ "Unknown") := by
  refine ⟨fun gid => rfl, fun gid d => rfl, fun gid => rfl, ?_, by decide,
    placeholderNeEmpty, placeholderNeUnknown⟩
  intro gid e he
  cases e with
  | resourceNotFound => exact absurd rfl he
  | clientError => rfl
  | jsonDecode => rfl
  | otherExc => rfl

/-- Claim C10 witness: a ClientError that is not ResourceNotFoundException
yields "Unknown". -/
theorem C10_group_name_witness :
    PyExc.clientError ≠ PyExc.resourceNotFound ∧
    get_group_name ("g-123") (Except.error PyExc.clientError) = "Unknown" :=
  ⟨by decide, C10_group_name.2.2.2.1 ("g-123") PyExc.clientError (by decide)⟩

/-- Claim C4: for a GROUP assignment whose group resolves (describe succeeds,
membership listing completes without error), the "Users in Group / Direct
User" cell is the comma-space join of the member display names in
membership-listing order, each resolved with the DisplayName → UserName →
"Unknown" fallback; the "Group/User Name" cell is the group's display name;
and a not-found group yields the placeholder containing the group id. -/
theorem C4_group_rows (ctx : RowCtx) (groups : String → GroupEnv)
    (users : String → Except PyExc UserResp) (a : Assignment) (r : ReportRow)
    (gr : GroupResp)
    (htype : a.principalType = "GROUP")
    (hdesc : (groups a.principalId).describe = Except.ok gr)
    (herr : (groups a.principalId).memberships.err = none)
    (h : process_assignment ctx groups users a = Except.ok r) :
    r.userListStr = String.intercalate (", ")
      (((groups a.principalId).memberships.items).map
        (fun uid => resolve_user_name ((groups a.principalId).users uid))) ∧
    r.userOrGroupName = gr.displayName.getD "" ∧
    (∀ gid, get_group_name gid (Except.error PyExc.resourceNotFound) =
      ("Group ID Not Found: ") ++ gid) := by
  have hu : get_users_of_group (groups a.principalId) =
      Except.ok (((groups a.principalId).memberships.items).map
        (fun uid => resolve_user_name ((groups a.principalId).users uid))) := by
    simp only [get_users_of_group, hdesc, herr]
  unfold process_assignment at h
  rw [if_pos htype] at h
  simp only [hu, hdesc, get_group_name, Except.ok.injEq] at h
  subst h
  exact ⟨rfl, rfl, fun gid => rfl⟩

/-- Claim C4 witness: a group with members m1, m2 whose display names are
"Alice" and "bob" produces the cell "Alice, bob". -/
theorem C4_group_rows_witness :
    c4assign.principalType = "GROUP" ∧
    (c4groups (c4assign.principalId)).describe = Except.ok ⟨some ("Engineers")⟩ ∧
    (c4groups (c4assign.principalId)).memberships.err = none ∧
    process_assignment c4ctx c4groups c4users c4assign = Except.ok c4row ∧
    c4row.userListStr = String.intercalate (", ")
      (((c4groups (c4assign.principalId)).memberships.items).map
        (fun uid => resolve_user_name ((c4groups (c4assign.principalId)).users uid))) ∧
    c4row.userOrGroupName = (⟨some ("Engineers")⟩ : GroupResp).displayName.getD "" :=
  ⟨rfl, rfl, rfl, rfl,
    (C4_group_rows c4ctx c4groups c4users c4assign c4row ⟨some ("Engineers")⟩
      rfl rfl rfl rfl).1,
    (C4_group_rows c4ctx c4groups c4users c4assign c4row ⟨some ("Engineers")⟩
      rfl rfl rfl rfl).2.1⟩

/-- Claim C5: for a USER assignment, the "Group/User Name" cell equals the
"Users in Group / Direct User" cell, and both equal the resolved display name
of that single user. -/
theorem C5_user_rows (ctx : RowCtx) (groups : String → GroupEnv)
    (users : String → Except PyExc UserResp) (a : Assignment) (r : ReportRow)
    (htype : a.principalType = "USER")
    (h : process_assignment ctx groups users a = Except.ok r) :
    r.userOrGroupName = r.userListStr ∧
    r.userOrGroupName = resolve_user_name (users a.principalId) := by
  unfold process_assignment at h
  rw [if_neg (by rw [htype]; decide), if_pos htype] at h
  simp only [Except.ok.injEq] at h
  subst h
  exact ⟨rfl, rfl⟩

theorem process_assignment_shape (ctx : RowCtx) (groups : String → GroupEnv)
    (users : String → Except PyExc UserResp) (a : Assignment) (r : ReportRow)
    (h : process_assignment ctx groups users a = Except.ok r) :
    ∃ uog uls, r = mkRow ctx a uog uls := by
  unfold process_assignment at h
  by_cases hg : a.principalType = "GROUP"
  · rw [if_pos hg] at h
    cases hu : get_users_of_group (groups a.principalId) with
    | error e =>
      simp only [hu] at h
      exact Except.noConfusion h
    | ok gu =>
      simp only [hu, Except.ok.injEq] at h
      exact ⟨_, _, h.symm⟩
  · rw [if_neg hg] at h
    by_cases hu2 : a.principalType = "USER"
    · rw [if_pos hu2] at h
      simp only [Except.ok.injEq] at h
      exact ⟨_, _, h.symm⟩
    · rw [if_neg hu2] at h
      simp only [Except.ok.injEq] at h
      exact ⟨_, _, h.symm⟩

/-- Claim C1: for a (account, permission-set) pair whose describe call
succeeded and whose processing completed, the number of appended rows equals
the number of assignments returned by the assignment listing, and every row
carries the same three policy-field values, computed once before the
assignment loop. -/
theorem C1_rows_per_pair (acct : AccountFields) (env : PsEnv) (psName : String)
    (rows : List ReportRow)
    (hdesc : env.describe = Except.ok psName)
    (hrun : process_permission_set acct env = Except.ok rows) :
    rows.length = env.assignments.items.length ∧
    ∃ ip, process_inline env.inlineResp env.prettyPrint = Except.ok ip ∧
      ∀ r ∈ rows,
        r.awsManagedStr =
          String.intercalate (", ") (awsManagedNames env.managedPolicies.items) ∧
        r.customerManagedStr =
          String.intercalate (", ")
            (customerManagedFromArns env.managedPolicies.items
              ++ env.customerRefs.items.map format_policy_ref) ∧
        r.inlinePolicyStr = ip := by
  unfold process_permission_set at hrun
  cases hm : env.managedPolicies.err with
  | some e => simp only [hdesc, hm] at hrun; exact Except.noConfusion hrun
  | none =>
  cases hc : env.customerRefs.err with
  | some e => simp only [hdesc, hm, hc] at hrun; exact Except.noConfusion hrun
  | none =>
  cases hinl : process_inline env.inlineResp env.prettyPrint with
  | error e => simp only [hdesc, hm, hc, hinl] at hrun; exact Except.noConfusion hrun
  | ok ip =>
  cases ha : env.assignments.err with
  | some e => simp only [hdesc, hm, hc, hinl, ha] at hrun; exact Except.noConfusion hrun
  | none =>
  simp only [hdesc, hm, hc, hinl, ha] at hrun
  refine ⟨mapRows_ok_length _ _ _ hrun, ip, rfl, ?_⟩
  intro r hr
  rcases mapRows_ok_mem _ _ _ hrun r hr with ⟨a, _, hfa⟩
  rcases process_assignment_shape _ _ _ _ _ hfa with ⟨uog, uls, rfl⟩
  exact ⟨rfl, rfl, rfl⟩

set_option maxRecDepth 8192 in
/-- Claim C1 witness: a pair with two assignments (one GROUP, one USER) gets
exactly two rows, both carrying the same policy fields. -/
theorem C1_rows_per_pair_witness :
    (c1env.describe = Except.ok ("AdminPS") ∧
      process_permission_set c1acct c1env = Except.ok c1rows) ∧
    (c1rows.length = c1env.assignments.items.length ∧
      ∃ ip, process_inline c1env.inlineResp c1env.prettyPrint = Except.ok ip ∧
        ∀ r ∈ c1rows,
          r.awsManagedStr =
            String.intercalate (", ") (awsManagedNames c1env.managedPolicies.items) ∧
          r.customerManagedStr =
            String.intercalate (", ")
              (customerManagedFromArns c1env.managedPolicies.items
                ++ c1env.customerRefs.items.map format_policy_ref) ∧
          r.inlinePolicyStr = ip) :=
  ⟨⟨rfl, rfl⟩, C1_rows_per_pair c1acct c1env ("AdminPS") c1rows rfl rfl⟩

/-- Claim C5 witness: a direct-user assignment for a user displaying as
"Carol". -/
theorem C5_user_rows_witness :
    c5assign.principalType = "USER" ∧
    process_assignment c4ctx c4groups c4users c5assign = Except.ok c5row ∧
    c5row.userOrGroupName = c5row.userListStr ∧
    c5row.userOrGroupName = resolve_user_name (c4users (c5assign.principalId)) :=
  ⟨rfl, rfl,
    (C5_user_rows c4ctx c4groups c4users c5assign c5row rfl rfl).1,
    (C5_user_rows c4ctx c4groups c4users c5assign c5row rfl rfl).2⟩

theorem process_permission_set_acct_fields (acct : AccountFields) (env : PsEnv)
    (rows : List ReportRow) (h : process_permission_set acct env = Except.ok rows) :
    ∀ r ∈ rows, r.accountId = acct.accountId ∧ r.accountName = acct.accountName ∧
      r.accountType = acct.accountType ∧ r.accountOwner = acct.accountOwner := by
  unfold process_permission_set at h
  cases hdesc : env.describe with
  | error e =>
    simp only [hdesc] at h
    by_cases he : e.isClientError = true
    · rw [if_pos he] at h
      have h2 := Except.ok.inj h
      subst h2
      intro r hr
      exact absurd hr (List.not_mem_nil r)
    · rw [if_neg he] at h
      exact Except.noConfusion h
  | ok psName =>
    cases hm : env.managedPolicies.err with
    | some e => simp only [hdesc, hm] at h; exact Except.noConfusion h
    | none =>
    cases hc : env.customerRefs.err with
    | some e => simp only [hdesc, hm, hc] at h; exact Except.noConfusion h
    | none =>
    cases hinl : process_inline env.inlineResp env.prettyPrint with
    | error e => simp only [hdesc, hm, hc, hinl] at h; exact Except.noConfusion h
    | ok ip =>
    cases ha : env.assignments.err with
    | some e => simp only [hdesc, hm, hc, hinl, ha] at h; exact Except.noConfusion h
    | none =>
    simp only [hdesc, hm, hc, hinl, ha] at h
    intro r hr
    rcases mapRows_ok_mem _ _ _ h r hr with ⟨a, _, hfa⟩
    rcases process_assignment_shape _ _ _ _ _ hfa with ⟨uog, uls, rfl⟩
    exact ⟨rfl, rfl, rfl, rfl⟩

theorem process_account_acct_fields (dm : List (String × AccountDetails))
    (aid : String) (env : AccountEnv) (rows : List ReportRow)
    (h : process_account dm aid env = Except.ok rows) :
    ∀ r ∈ rows,
      r.accountId = aid ∧
      r.accountName = (resolve_account_fields dm aid).1 ∧
      r.accountType = (resolve_account_fields dm aid).2.1 ∧
      r.accountOwner = (resolve_account_fields dm aid).2.2 := by
  unfold process_account at h
  cases hps : get_permission_sets_for_account env.permissionSets with
  | error e => simp only [hps] at h; exact Except.noConfusion h
  | ok psList =>
  simp only [hps] at h
  by_cases hemp : psList = []
  · rw [if_pos hemp] at h
    have h2 := Except.ok.inj h
    subst h2
    intro r hr
    exact absurd hr (List.not_mem_nil r)
  · rw [if_neg hemp] at h
    cases hmap : mapRows (fun arn =>
        process_permission_set (account_fields_of dm aid) (env.psEnv arn)) psList with
    | error e => simp only [hmap] at h; exact Except.noConfusion h
    | ok blocks =>
    simp only [hmap] at h
    have h2 := Except.ok.inj h
    subst h2
    intro r hr
    rcases (mem_joinAll r blocks).mp hr with ⟨block, hb, hrb⟩
    rcases mapRows_ok_mem _ _ _ hmap block hb with ⟨arn, _, hpa⟩
    exact process_permission_set_acct_fields _ _ _ hpa r hrb

/-- Claim C8: a missing metadata CSV makes `load_account_details` yield the
empty mapping; every account then resolves to the "not available" sentinel in
all three metadata fields; and every row of any run performed with that empty
mapping carries the sentinel in Account Name, Account Type and Account Owner —
the run is not aborted by the missing file. -/
theorem C8_missing_csv :
    load_account_details none = [] ∧
    (∀ aid, resolve_account_fields (load_account_details none) aid =
      (csvNotMapped, csvNotMapped, csvNotMapped)) ∧
    (∀ accounts rows,
      run_report (load_account_details none) accounts = Except.ok rows →
      ∀ r ∈ rows, r.accountName = csvNotMapped ∧ r.accountType = csvNotMapped ∧
        r.accountOwner = csvNotMapped) := by
  refine ⟨rfl, fun aid => rfl, ?_⟩
  intro accounts rows h r hr
  unfold run_report at h
  cases hmap : mapRows
      (fun p => process_account (load_account_details none) p.1 p.2) accounts with
  | error e => simp only [hmap] at h; exact Except.noConfusion h
  | ok blocks =>
  simp only [hmap] at h
  have h2 := Except.ok.inj h
  subst h2
  rcases (mem_joinAll r blocks).mp hr with ⟨block, hb, hrb⟩
  rcases mapRows_ok_mem _ _ _ hmap block hb with ⟨p, _, hpa⟩
  have h3 := process_account_acct_fields _ _ _ _ hpa r hrb
  exact ⟨h3.2.1, h3.2.2.1, h3.2.2.2⟩

set_option maxRecDepth 8192 in
/-- Claim C8 witness: with the CSV missing, a run over one account with two
assignments still emits two rows, all metadata cells showing the sentinel. -/
theorem C8_missing_csv_witness :
    run_report (load_account_details none) c8accounts = Except.ok c8rows ∧
    c8rows ≠ [] ∧
    (∀ r ∈ c8rows, r.accountName = csvNotMapped ∧ r.accountType = csvNotMapped ∧
      r.accountOwner = csvNotMapped) :=
  ⟨rfl, by decide, C8_missing_csv.2.2 c8accounts c8rows rfl⟩

theorem process_account_single_abort (dm : List (String × AccountDetails))
    (aid arn : String) (env : PsEnv) (e : PyExc)
    (h : ∀ acct, process_permission_set acct env = Except.error e) :
    process_account dm aid ⟨⟨[[arn]], none⟩, fun _ => env⟩ = Except.error e := by
  have hps : get_permission_sets_for_account ⟨[[arn]], none⟩ =
      Except.ok [arn] := by
    simp [get_permission_sets_for_account, Paged.items, joinAll]
  unfold process_account
  simp only [hps]
  rw [if_neg (by simp)]
  simp only [mapRows, h]

/-- Claim C9: when the fetched inline policy is non-empty and the json
pretty-printer raises a decode error on it, only ClientError being caught, the
permission-set processing — and with it the whole run — aborts with that
uncaught error; conversely, when every non-empty inline policy pretty-prints
successfully, inline-policy processing is total. -/
theorem C9_inline_json (env : PsEnv) (psName s : String)
    (hdesc : env.describe = Except.ok psName)
    (hm : env.managedPolicies.err = none)
    (hc : env.customerRefs.err = none)
    (hresp : env.inlineResp = Except.ok (some s))
    (hne : s ≠ "")
    (hbad : env.prettyPrint s = Except.error PyExc.jsonDecode) :
    (∀ acct, process_permission_set acct env = Except.error PyExc.jsonDecode) ∧
    PyExc.jsonDecode.isClientError = false ∧
    (∀ dm aid arn,
      run_report dm [(aid, ⟨⟨[[arn]], none⟩, fun _ => env⟩)] =
        Except.error PyExc.jsonDecode) ∧
    (∀ (resp : Except PyExc (Option String)) (pretty : String → Except PyExc String)
      (r : Option String), resp = Except.ok r →
      (∀ t, t ≠ "" → ∃ o, pretty t = Except.ok o) →
      ∃ ip, process_inline resp pretty = Except.ok ip) := by
  have hfalse : PyExc.jsonDecode.isClientError = false := rfl
  have hinl : process_inline env.inlineResp env.prettyPrint =
      Except.error PyExc.jsonDecode := by
    simp only [process_inline, hresp, Option.getD_some]
    rw [if_neg hne, hbad]
    rfl
  have hmain : ∀ acct,
      process_permission_set acct env = Except.error PyExc.jsonDecode := by
    intro acct
    simp only [process_permission_set, hdesc, hm, hc, hinl]
  refine ⟨hmain, hfalse, ?_, ?_⟩
  · intro dm aid arn
    have h1 := process_account_single_abort dm aid arn env PyExc.jsonDecode hmain
    simp only [run_report, mapRows, h1]
  · intro resp pretty r hr hok
    subst hr
    by_cases hcase : r.getD "" = ""
    · refine ⟨r.getD "", ?_⟩
      simp only [process_inline]
      rw [if_pos hcase]
    · rcases hok (r.getD "") hcase with ⟨o, ho⟩
      refine ⟨o, ?_⟩
      simp only [process_inline]
      rw [if_neg hcase, ho]

/-- Claim C9 witness: a permission set whose inline policy is the non-empty
invalid-JSON string "not json" makes processing abort with the decode
error. -/
theorem C9_inline_json_witness :
    (c9env.inlineResp = Except.ok (some ("not json")) ∧
      ("not json" : String) ≠ "" ∧
      c9env.prettyPrint ("not json") = Except.error PyExc.jsonDecode) ∧
    (∀ acct, process_permission_set acct c9env = Except.error PyExc.jsonDecode) :=
  ⟨⟨rfl, by decide, rfl⟩,
    (C9_inline_json c9env ("PS-Two") ("not json") rfl rfl rfl rfl (by decide) rfl).1⟩

/-- Claim C3, counterexample: the claim says a transport error while listing
managed policies, customer-managed policy references, or account assignments
for one permission set never aborts the run; but those three pagination loops
are not wrapped in any try/except, so a ClientError raised there propagates
and the whole run aborts (the result is an uncaught exception, not a report
with the rest of the accounts processed). -/
theorem C3_abort_cex :
    run_report [] [(("111111111111"),
      c3acct { c3psBase with managedPolicies := ⟨[], some PyExc.clientError⟩ })] =
      Except.error PyExc.clientError ∧
    run_report [] [(("111111111111"),
      c3acct { c3psBase with customerRefs := ⟨[], some PyExc.clientError⟩ })] =
      Except.error PyExc.clientError ∧
    run_report [] [(("111111111111"),
      c3acct { c3psBase with assignments := ⟨[], some PyExc.clientError⟩ })] =
      Except.error PyExc.clientError :=
  ⟨rfl, rfl, rfl⟩

theorem get_users_of_group_scoped (g : GroupEnv) (hg : groupScoped g) :
    ∃ us, get_users_of_group g = Except.ok us := by
  cases hd : g.describe with
  | error e =>
    refine ⟨[], ?_⟩
    simp only [get_users_of_group, hd]
  | ok gr =>
    cases he : g.memberships.err with
    | none =>
      refine ⟨g.memberships.items.map (fun uid => resolve_user_name (g.users uid)), ?_⟩
      simp only [get_users_of_group, hd, he]
    | some e =>
      refine ⟨g.memberships.items.map (fun uid => resolve_user_name (g.users uid)), ?_⟩
      simp only [get_users_of_group, hd, he]
      rw [if_pos (hg e he)]

theorem process_assignment_scoped (ctx : RowCtx) (groups : String → GroupEnv)
    (users : String → Except PyExc UserResp) (a : Assignment)
    (hg : ∀ pid, groupScoped (groups pid)) :
    ∃ r, process_assignment ctx groups users a = Except.ok r := by
  unfold process_assignment
  by_cases h1 : a.principalType = "GROUP"
  · rw [if_pos h1]
    rcases get_users_of_group_scoped (groups a.principalId) (hg a.principalId) with
      ⟨us, hus⟩
    simp only [hus]
    exact ⟨_, rfl⟩
  · rw [if_neg h1]
    by_cases h2 : a.principalType = "USER"
    · rw [if_pos h2]; exact ⟨_, rfl⟩
    · rw [if_neg h2]; exact ⟨_, rfl⟩

theorem process_inline_scoped (resp : Except PyExc (Option String))
    (pretty : String → Except PyExc String)
    (hr : ∀ e, resp = Except.error e → e.isClientError = true)
    (hp : ∀ s e, pretty s = Except.error e → e.isClientError = true) :
    ∃ ip, process_inline resp pretty = Except.ok ip := by
  cases hre : resp with
  | error e =>
    refine ⟨"", ?_⟩
    simp only [process_inline, hre]
    rw [if_pos (hr e hre)]
  | ok r =>
    by_cases hcase : r.getD "" = ""
    · refine ⟨r.getD "", ?_⟩
      simp only [process_inline, hre]
      rw [if_pos hcase]
    · cases hps : pretty (r.getD "") with
      | ok o =>
        refine ⟨o, ?_⟩
        simp only [process_inline, hre]
        rw [if_neg hcase, hps]
      | error e =>
        refine ⟨"", ?_⟩
        simp only [process_inline, hre]
        rw [if_neg hcase, hps]
        show (if e.isClientError = true then Except.ok "" else Except.error e) =
          Except.ok ""
        rw [if_pos (hp _ e hps)]

theorem process_permission_set_scoped (acct : AccountFields) (env : PsEnv)
    (hs : psScoped env) :
    ∃ rows, process_permission_set acct env = Except.ok rows := by
  obtain ⟨hd, hm, hc, hir, hip, ha, hg⟩ := hs
  cases hde : env.describe with
  | error e =>
    refine ⟨[], ?_⟩
    simp only [process_permission_set, hde]
    rw [if_pos (hd e hde)]
  | ok psName =>
    rcases process_inline_scoped env.inlineResp env.prettyPrint hir hip with ⟨ip2, hinl⟩
    simp only [process_permission_set, hde, hm, hc, hinl, ha]
    exact mapRows_ok_of_all _ _
      (fun a _ => process_assignment_scoped _ env.groups env.users a hg)

theorem process_account_scoped (dm : List (String × AccountDetails)) (aid : String)
    (env : AccountEnv) (hs : accountScoped env) :
    ∃ rows, process_account dm aid env = Except.ok rows := by
  obtain ⟨hps, hpsenv⟩ := hs
  have hlist : ∃ l, get_permission_sets_for_account env.permissionSets =
      Except.ok l := by
    cases he : env.permissionSets.err with
    | none =>
      refine ⟨env.permissionSets.items, ?_⟩
      simp only [get_permission_sets_for_account, he]
    | some e =>
      refine ⟨env.permissionSets.items, ?_⟩
      simp only [get_permission_sets_for_account, he]
      rw [if_pos (hps e he)]
  rcases hlist with ⟨l, hl⟩
  by_cases hemp : l = []
  · refine ⟨[], ?_⟩
    simp only [process_account, hl]
    rw [if_pos hemp]
  · rcases mapRows_ok_of_all
      (fun arn => process_permission_set (account_fields_of dm aid) (env.psEnv arn)) l
      (fun arn _ => process_permission_set_scoped _ (env.psEnv arn) (hpsenv arn)) with
      ⟨blocks, hb⟩
    refine ⟨joinAll blocks, ?_⟩
    simp only [process_account, hl, hb]
    rw [if_neg hemp]

/-- Claim C3, amended: errors the script catches are indeed scoped — a run in
which the permission-set listing fails (if at all) only with a ClientError,
the describe, inline-fetch and pretty-print steps fail (if at all) only with a
ClientError, membership listings fail (if at all) only with a ClientError, and
the managed-policy, customer-reference and assignment listings raise nothing,
always completes with a report; but (see the counterexample) a transport error
in the managed-policy, customer-reference or assignment pagination loops is
uncaught and aborts the whole run, in addition to the fatal Init failures. -/
theorem C3_scoped_amended (dm : List (String × AccountDetails))
    (accounts : List (String × AccountEnv))
    (h : ∀ p ∈ accounts, accountScoped p.2) :
    ∃ rows, run_report dm accounts = Except.ok rows := by
  rcases mapRows_ok_of_all (fun p => process_account dm p.1 p.2) accounts
    (fun p hp => process_account_scoped dm p.1 p.2 (h p hp)) with ⟨blocks, hb⟩
  refine ⟨joinAll blocks, ?_⟩
  simp only [run_report, hb]

/-- Claim C3 witness: a concrete one-account scoped run completes. -/
theorem C3_scoped_amended_witness :
    (∀ p ∈ [(("111111111111"), c3acct c3psBase)], accountScoped p.2) ∧
    ∃ rows, run_report [] [(("111111111111"), c3acct c3psBase)] = Except.ok rows := by
  have hproof : ∀ p ∈ [(("111111111111"), c3acct c3psBase)], accountScoped p.2 := by
    intro p hp
    rw [List.mem_singleton] at hp
    subst hp
    refine ⟨?_, ?_⟩
    · intro e he
      exact Option.noConfusion he
    · intro arn
      refine ⟨?_, rfl, rfl, ?_, ?_, rfl, ?_⟩
      · intro e he
        exact Except.noConfusion he
      · intro e he
        exact Except.noConfusion he
      · intro s e he
        exact Except.noConfusion he
      · intro pid e he
        exact Option.noConfusion he
  exact ⟨hproof, C3_scoped_amended [] _ hproof⟩

end IamIcReport
